import Mathlib

/-!
Verification of the player-simulation and round-lifecycle core of the
zataka-ts repository (src/game/entities/Player.ts and
src/game/managers/PlayerManager.ts), via a shallow embedding.

Numbers held in JS `number` fields are modelled as rationals; counters that
the source only ever sets to 0 and increments by 1 are modelled as naturals.
External collaborators are modelled as oracles: the input table as a
`String → Bool` map, the FPS provider as an `Option ℚ`, the canvas pixel
read-back as a `ℤ → ℤ → RGB` function, `Math.random()` results as explicit
rational parameters, and `Math.sin` / `Math.cos` / `Math.PI` as an abstract
`TrigModel` (every theorem quantifies over it, so the float behaviour is an
instance).  Each `draw()` call additionally returns a `DrawOut` trace
recording the observable calls the source makes on its collaborators:
`getImageData` reads, `fill` strokes, whether `isColliding()` was invoked
and what it returned, and whether the death callback fired.
-/

/-- Play-area dimensions (`dependencies.dimensions` in the source). -/
structure Dims where
  width : ℚ
  height : ℚ
  scoreWidth : ℚ
deriving DecidableEq, Repr

/-- `PlayerConstants`, already merged with defaults. -/
structure PConsts where
  afterDieTime : ℚ
  collisionTolerance : ℚ
  startTime : ℚ
deriving DecidableEq, Repr

/-- `DEFAULT_CONSTANTS` from Player.ts. -/
def DEFAULT_CONSTANTS : PConsts :=
  { afterDieTime := 0, collisionTolerance := 30, startTime := 40 }

/-- `PlayerPhysicsConfig`. -/
structure Physics where
  size : ℚ
  speed : ℚ
  curveSpeed : ℚ
  holeRate : ℚ
  holeRateRnd : ℚ
  holeSize : ℚ
  holeSizeRnd : ℚ
deriving DecidableEq, Repr

/-- `PlayerTemplate` (the `count` field is never read by the core). -/
structure Template where
  ready : Bool
  name : String
  color : String
  left : String
  right : String
deriving DecidableEq, Repr

/-- The five `Math.random()` draws consumed by one `Player.init()` call. -/
structure InitRnd where
  rx : ℚ
  ry : ℚ
  rAngle : ℚ
  rHole : ℚ
  rHoleSize : ℚ

/-- A pixel colour as returned by `getImageData(x, y, 1, 1).data`. -/
structure RGB where
  r : ℚ
  g : ℚ
  b : ℚ

/-- Abstract model of the float library functions used by `draw()`:
`Math.cos`, `Math.sin` and the constant `Math.PI`. -/
structure TrigModel where
  cos : ℚ → ℚ
  sin : ℚ → ℚ
  pi : ℚ

/-- Per-frame environment: the polled key table, the FPS provider value,
the canvas pixel read-back, and the two `Math.random()` results consumed
if `createHole` finishes a hole this frame. -/
structure Env where
  keys : String → Bool
  fps : Option ℚ
  getPixel : ℤ → ℤ → RGB
  rnd1 : ℚ
  rnd2 : ℚ

/-- Trace of one `draw()` call: pixel reads issued, trail strokes drawn,
whether `isColliding()` was invoked (`checked`) and its result
(`collided`), and whether the death callback fired. -/
structure DrawOut where
  pixelReads : List (ℤ × ℤ)
  strokes : List (ℚ × ℚ)
  checked : Bool
  collided : Bool
  deathFired : Bool
deriving DecidableEq, Repr

/-- The empty trace. -/
def noOut : DrawOut :=
  { pixelReads := [], strokes := [], checked := false, collided := false,
    deathFired := false }

/-- Full state of one `Player` instance. -/
structure PState where
  name : String
  color : String
  left : String
  right : String
  score : ℚ
  dead : Bool
  size : ℚ
  speed : ℚ
  curveSpeed : ℚ
  holeRate : ℚ
  holeRateRnd : ℚ
  holeSize : ℚ
  holeSizeRnd : ℚ
  afterDieTime : ℚ
  collisionTolerance : ℚ
  startTime : ℚ
  dims : Dims
  x : ℚ
  y : ℚ
  angle : ℚ
  dying : Bool
  afterDieCount : ℕ
  counter : ℕ
  hole : Bool
  holeCounter : ℕ
  nextHole : ℚ
  nextHoleSize : ℚ
deriving DecidableEq, Repr

/-- The `Player` constructor (`createPlayer`): template, physics,
dimensions and merged constants; all transient state zeroed. -/
def mkPlayer (tp : Template) (ph : Physics) (d : Dims) (c : PConsts) : PState :=
  { name := tp.name, color := tp.color, left := tp.left, right := tp.right,
    score := 0, dead := false,
    size := ph.size, speed := ph.speed, curveSpeed := ph.curveSpeed,
    holeRate := ph.holeRate, holeRateRnd := ph.holeRateRnd,
    holeSize := ph.holeSize, holeSizeRnd := ph.holeSizeRnd,
    afterDieTime := c.afterDieTime,
    collisionTolerance := c.collisionTolerance,
    startTime := c.startTime,
    dims := d,
    x := 0, y := 0, angle := 0,
    dying := false, afterDieCount := 0, counter := 0,
    hole := false, holeCounter := 0, nextHole := 0, nextHoleSize := 0 }

/-- `#getNextHole()`: `holeRate + (random()*2 - 1) * holeRateRnd`. -/
def Player.getNextHole (r : ℚ) (p : PState) : ℚ :=
  p.holeRate + (r * 2 - 1) * p.holeRateRnd

/-- `#getNextHoleSize()`: `holeSize + (random()*2 - 1) * holeSizeRnd`. -/
def Player.getNextHoleSize (r : ℚ) (p : PState) : ℚ :=
  p.holeSize + (r * 2 - 1) * p.holeSizeRnd

/-- `Player.init()`: reset counters and flags, choose a random position
and heading, and draw the first hole onset/duration pair. -/
def Player.init (r : InitRnd) (p : PState) : PState :=
  let gameWidth := p.dims.width - p.dims.scoreWidth
  { p with
    counter := 0, holeCounter := 0, afterDieCount := 0,
    dying := false, hole := false, dead := false,
    x := (gameWidth - 100) * r.rx + 50,
    y := (p.dims.height - 100) * r.ry + 50,
    angle := r.rAngle * 360,
    nextHole := Player.getNextHole r.rHole p,
    nextHoleSize := Player.getNextHoleSize r.rHoleSize p }

/-- `#createHole()`: advance the hole counter and the hole state machine. -/
def Player.createHole (env : Env) (p : PState) : PState :=
  let p1 := { p with holeCounter := p.holeCounter + 1 }
  if (p1.holeCounter : ℚ) > p1.nextHole ∨ p1.hole then
    let p2 := { p1 with hole := true }
    if (p2.holeCounter : ℚ) > p2.nextHole + p2.nextHoleSize then
      { p2 with
        nextHole := Player.getNextHole env.rnd1 p2,
        nextHoleSize := Player.getNextHoleSize env.rnd2 p2,
        hole := false, holeCounter := 0 }
    else p2
  else p1

/-- Rounding as performed by `Math.round` (half away from zero upward). -/
def jsRound (q : ℚ) : ℤ := ⌊q + 1 / 2⌋

/-- `#isColliding()`: boundary test on the current position first, then
two pixel samples cast forward at `angle ± collisionTolerance`; returns
the verdict together with the list of pixel reads issued. -/
def Player.isColliding (t : TrigModel) (env : Env) (p : PState) :
    Bool × List (ℤ × ℤ) :=
  let gameWidth := p.dims.width - p.dims.scoreWidth
  if p.x < 0 ∨ p.x > gameWidth ∨ p.y < 0 ∨ p.y > p.dims.height then
    (true, [])
  else
    let rcol := p.size + 2
    let rad1 := (p.angle + p.collisionTolerance) * t.pi / 180
    let y1 := jsRound (p.y + rcol * t.cos rad1)
    let x1 := jsRound (p.x + rcol * t.sin rad1)
    let p1 := env.getPixel x1 y1
    let rad2 := (p.angle - p.collisionTolerance) * t.pi / 180
    let y2 := jsRound (p.y + rcol * t.cos rad2)
    let x2 := jsRound (p.x + rcol * t.sin rad2)
    let p2 := env.getPixel x2 y2
    let reads := [(x1, y1), (x2, y2)]
    if p1.r ≠ 0 ∨ p1.g ≠ 0 ∨ p1.b ≠ 0 ∨ p2.r ≠ 0 ∨ p2.g ≠ 0 ∨ p2.b ≠ 0 then
      (true, reads)
    else
      (false, reads)

/-- Steps 4 and 5 of `Player.draw()` extracted for reuse: apply steering
to the heading (left wins over right) and integrate the position, both
scaled by the FPS multiplier `mult`. -/
def Player.steerAndMove (t : TrigModel) (env : Env) (mult : ℚ) (p2 : PState) :
    PState :=
  let adjSpeed := p2.speed * mult
  let adjAng := p2.curveSpeed * mult
  let p3 := if env.keys p2.left then { p2 with angle := p2.angle + adjAng }
            else if env.keys p2.right then { p2 with angle := p2.angle - adjAng }
            else p2
  let rad := p3.angle * t.pi / 180
  { p3 with y := p3.y + adjSpeed * t.cos rad,
            x := p3.x + adjSpeed * t.sin rad }

/-- `Player.draw()`: one frame of the player update, returning the new
state and the trace of collaborator calls. -/
def Player.draw (t : TrigModel) (env : Env) (p : PState) : PState × DrawOut :=
  let p1 := { p with counter := p.counter + 1 }
  if (p1.counter : ℚ) < p1.startTime ∧ p1.counter > 2 then
    (p1, noOut)
  else if p1.dying ∧ (p1.afterDieCount : ℚ) > p1.afterDieTime then
    ({ p1 with dead := true }, { noOut with deathFired := true })
  else
    let p2 := if p1.dying then { p1 with afterDieCount := p1.afterDieCount + 1 }
              else p1
    let mult : ℚ := match env.fps with
      | some f => if 20 < f then 60 / f else 1
      | none => 1
    let p4 := Player.steerAndMove t env mult p2
    let p5 := Player.createHole env p4
    if ¬ p5.hole then
      let hit := Player.isColliding t env p5
      let p6 := if hit.1 then { p5 with dying := true } else p5
      (p6, { pixelReads := hit.2, strokes := [(p6.x, p6.y)],
             checked := true, collided := hit.1, deathFired := false })
    else
      (p5, noOut)

/-- State after `k` successive `draw()` calls, frame `i` using `envs i`. -/
def stepN (t : TrigModel) (envs : ℕ → Env) (p : PState) : ℕ → PState
  | 0 => p
  | k + 1 => (Player.draw t (envs k) (stepN t envs p k)).1

/-- Trace of the `(k+1)`-th `draw()` call (0-indexed). -/
def outN (t : TrigModel) (envs : ℕ → Env) (p : PState) (k : ℕ) : DrawOut :=
  (Player.draw t (envs k) (stepN t envs p k)).2

/-- The logical key name polled by `PlayerManager.animate()`. -/
def spaceKey : String := "space"

/-- `PlayerManagerConfig`: `maxRounds` plus the shared physics. -/
structure MConfig where
  maxRounds : ℤ
  physics : Physics
deriving Repr

/-- Callback events emitted by `PlayerManager.animate()`. -/
inductive GEvent where
  | newRound : GEvent
  | finish : GEvent
deriving DecidableEq, Repr

/-- Trace of one `animate()` call: names of players whose `draw()` was
invoked, in invocation order, and the callbacks fired. -/
structure AnimOut where
  drawnNames : List String
  events : List GEvent
deriving DecidableEq, Repr

/-- Full state of a `PlayerManager` instance. -/
structure MState where
  running : Bool
  roundCount : ℤ
  maxRounds : ℤ
  templates : List Template
  pool : List PState
  dims : Dims
  pconsts : PConsts
deriving DecidableEq, Repr

/-- The `PlayerManager` constructor: empty pool, `running = false`,
`roundCount = maxRounds = 0`, the given template list and dependencies. -/
def mkManager (d : Dims) (c : PConsts) (ts : List Template) : MState :=
  { running := false, roundCount := 0, maxRounds := 0,
    templates := ts, pool := [], dims := d, pconsts := c }

/-- One iteration of the template loop in `PlayerManager.init(config)`:
for a ready template, create the player, copy the score of a same-named
member of the pool being built, and append. -/
def initFold (cfg : MConfig) (st : MState) (tp : Template) : MState :=
  if tp.ready then
    let pl := mkPlayer tp cfg.physics st.dims st.pconsts
    let pl := match st.pool.find? (fun q => q.name == tp.name) with
      | some q => { pl with score := q.score }
      | none => pl
    { st with pool := st.pool ++ [pl] }
  else st

/-- `PlayerManager.init(config)`: reset `roundCount` and the pool, then
create one player per ready template; the score-preservation lookup
scans `this.#pool`, which was emptied just above, exactly as the source
does. -/
def PlayerManager.init (cfg : MConfig) (m : MState) : MState :=
  m.templates.foldl (initFold cfg)
    { m with maxRounds := cfg.maxRounds, roundCount := 0,
             pool := ([] : List PState) }

/-- Helper for `startRound`: call `Player.init` on every pool member,
player `i` consuming the random draws `rs i`. -/
def poolInit (rs : ℕ → InitRnd) : ℕ → List PState → List PState
  | _, [] => []
  | i, p :: r => Player.init (rs i) p :: poolInit rs (i + 1) r

/-- `PlayerManager.startRound()`: set `running`, clear the canvas (not
part of the modelled state) and re-initialize every pool player. -/
def PlayerManager.startRound (rs : ℕ → InitRnd) (m : MState) : MState :=
  { m with running := true, pool := poolInit rs 0 m.pool }

/-- The dead-count scan of `checkRoundOver()`: count dead players and
report whether the count reached the threshold at any point. -/
def croScan : List PState → ℤ → ℤ → Bool
  | [], _, _ => false
  | p :: rest, deadCount, threshold =>
    let dc := if p.dead then deadCount + 1 else deadCount
    if dc ≥ threshold then true else croScan rest dc threshold

/-- Effect of `checkRoundOver()` on `(roundCount, running)` given a pool. -/
def croCore (pool : List PState) (rc : ℤ) (run : Bool) : ℤ × Bool :=
  if croScan pool 0 ((pool.length : ℤ) - 1) then (rc + 1, false) else (rc, run)

/-- `PlayerManager.checkRoundOver()`. -/
def PlayerManager.checkRoundOver (m : MState) : MState :=
  let rr := croCore m.pool m.roundCount m.running
  { m with roundCount := rr.1, running := rr.2 }

/-- The running-branch loop of `animate()`: draw each non-dead player in
roster order; a fired death callback immediately runs the round-over
check on the pool as mutated so far (processed players updated in place,
later players still in their pre-frame state). -/
def animGo (t : TrigModel) (envs : ℕ → Env) :
    ℕ → List PState → List PState → ℤ → Bool →
    List PState × ℤ × Bool × List String
  | _, done, [], rc, run => (done, rc, run, [])
  | i, done, p :: rest, rc, run =>
    if p.dead then
      animGo t envs (i + 1) (done ++ [p]) rest rc run
    else
      let pr := Player.draw t (envs i) p
      let rr := if pr.2.deathFired then
                  croCore (done ++ [pr.1] ++ rest) rc run
                else (rc, run)
      let res := animGo t envs (i + 1) (done ++ [pr.1]) rest rr.1 rr.2
      (res.1, res.2.1, res.2.2.1, p.name :: res.2.2.2)

/-- `PlayerManager.animate()`: while running, draw every living player;
otherwise poll the space key and fire the next-round or finish callback. -/
def PlayerManager.animate (t : TrigModel) (envs : ℕ → Env) (m : MState) :
    MState × AnimOut :=
  if m.running then
    let res := animGo t envs 0 [] m.pool m.roundCount m.running
    ({ m with pool := res.1, roundCount := res.2.1, running := res.2.2.1 },
     { drawnNames := res.2.2.2, events := [] })
  else
    if (envs 0).keys spaceKey then
      if m.roundCount < m.maxRounds then
        (m, { drawnNames := [], events := [GEvent.newRound] })
      else
        ({ m with running := false },
         { drawnNames := [], events := [GEvent.finish] })
    else
      (m, { drawnNames := [], events := [] })

/-- Manager states reachable from a freshly constructed `PlayerManager`
by any sequence of `init`, `startRound`, `animate` and `checkRoundOver`
calls. -/
inductive Reach : MState → Prop where
  | new (d : Dims) (c : PConsts) (ts : List Template) :
      Reach (mkManager d c ts)
  | init (cfg : MConfig) {m : MState} :
      Reach m → Reach (PlayerManager.init cfg m)
  | start (rs : ℕ → InitRnd) {m : MState} :
      Reach m → Reach (PlayerManager.startRound rs m)
  | anim (t : TrigModel) (envs : ℕ → Env) {m : MState} :
      Reach m → Reach (PlayerManager.animate t envs m).1
  | cro {m : MState} :
      Reach m → Reach (PlayerManager.checkRoundOver m)

attribute [local semireducible] Rat.add Rat.mul Rat.inv Rat.sub Rat.ofScientific

set_option maxRecDepth 100000

/-- Number of pool members whose `dead` flag is set (as an integer, the
way `checkRoundOver()` accumulates it). -/
def countDead : List PState → ℤ
  | [] => 0
  | p :: r => (if p.dead then 1 else 0) + countDead r

/-- Concrete play area: 500 × 500 canvas with a 150-wide score strip
would leave 350; here a 100-wide strip leaves a 400-wide play area. -/
def dims0 : Dims := { width := 500, height := 500, scoreWidth := 100 }

/-- Constants with no startup window (`startTime = 0`). -/
def constsNoStart : PConsts :=
  { afterDieTime := 0, collisionTolerance := 30, startTime := 0 }

/-- The red template, `ready`. -/
def redT : Template :=
  { ready := true, name := "red", color := "#f82801", left := "1", right := "q" }

/-- The blue template, `ready`. -/
def blueT : Template :=
  { ready := true, name := "blue", color := "#02a0c8", left := "o", right := "p" }

/-- Physics whose first hole starts far beyond the frames examined. -/
def physNoHole : Physics :=
  { size := 1, speed := 1, curveSpeed := 1, holeRate := 1000, holeRateRnd := 0,
    holeSize := 5, holeSizeRnd := 0 }

/-- Physics with `holeRate = 2`, `holeSize = 1`, no jitter. -/
def physHole21 : Physics :=
  { size := 1, speed := 1, curveSpeed := 1, holeRate := 2, holeRateRnd := 0,
    holeSize := 1, holeSizeRnd := 0 }

/-- Fast physics: 150 pixels per frame, first hole after 2 frames. -/
def physFast : Physics :=
  { size := 1, speed := 150, curveSpeed := 1, holeRate := 2, holeRateRnd := 0,
    holeSize := 5, holeSizeRnd := 0 }

/-- Trig model matching the floats at heading 0: `cos = 1`, `sin = 0`. -/
def trigUp : TrigModel := { cos := fun _ => 1, sin := fun _ => 0, pi := 3 }

/-- Trig model matching the floats at heading 90°: `cos = 0`, `sin = 1`. -/
def trigRight : TrigModel := { cos := fun _ => 0, sin := fun _ => 1, pi := 3 }

/-- All five random draws equal to 0: spawn at (50, 50), heading 0. -/
def rnd0 : InitRnd := { rx := 0, ry := 0, rAngle := 0, rHole := 0, rHoleSize := 0 }

/-- Environment: no keys held, no FPS reading, all pixels black. -/
def envBlack : Env :=
  { keys := fun _ => false, fps := none,
    getPixel := fun _ _ => { r := 0, g := 0, b := 0 }, rnd1 := 0, rnd2 := 0 }

/-- Environment: no keys held, every pixel read returns red. -/
def envRed : Env :=
  { keys := fun _ => false, fps := none,
    getPixel := fun _ _ => { r := 255, g := 0, b := 0 }, rnd1 := 0, rnd2 := 0 }

/-- Environment: the space key held, all pixels black. -/
def envSpace : Env :=
  { keys := fun k => k == spaceKey, fps := none,
    getPixel := fun _ _ => { r := 0, g := 0, b := 0 }, rnd1 := 0, rnd2 := 0 }

/-- Environment stream: all pixels black on frame 1, red from frame 2
on, so the first collision hit lands exactly on frame 2. -/
def envsHit2 : ℕ → Env := fun k => if k = 0 then envBlack else envRed

/-- A freshly round-initialized player with default constants
(`startTime = 40`, `afterDieTime = 0`), spawned at (50, 50). -/
def pRed : PState := Player.init rnd0 (mkPlayer redT physNoHole dims0 DEFAULT_CONSTANTS)

/-- A player with no startup window and the 2/1 hole cycle. -/
def pCyc : PState := Player.init rnd0 (mkPlayer redT physHole21 dims0 constsNoStart)

/-- A fast player with no startup window, used to leave the play area
while inside a hole. -/
def pFast : PState := Player.init rnd0 (mkPlayer redT physFast dims0 constsNoStart)

/-- A player with no startup window and a distant first hole. -/
def pNoStart : PState := Player.init rnd0 (mkPlayer redT physNoHole dims0 constsNoStart)

/-- Manager with a single ready template after `init(maxRounds = 1)`. -/
def mgrOne : MState :=
  PlayerManager.init { maxRounds := 1, physics := physNoHole }
    (mkManager dims0 DEFAULT_CONSTANTS [redT])

/-- Manager whose previous roster holds a red player with score 3 (set by
the host's scoring collaborator), about to be re-initialized. -/
def mgrPrev : MState :=
  { mkManager dims0 DEFAULT_CONSTANTS [redT] with
    pool := [{ mkPlayer redT physNoHole dims0 DEFAULT_CONSTANTS with score := 3 }] }

/-- Two-player manager (no startup window), initialized for five rounds
and with a round started. -/
def mgrTwo : MState :=
  PlayerManager.startRound (fun _ => rnd0)
    (PlayerManager.init { maxRounds := 5, physics := physNoHole }
      (mkManager dims0 constsNoStart [redT, blueT]))

/-- One `animate()` pass over `mgrTwo`-style states in which every pixel
read returns red, so both players collide immediately. -/
def animateRed (m : MState) : MState :=
  (PlayerManager.animate trigUp (fun _ => envRed) m).1

/-- Manager built from zero ready templates, round started. -/
def mgrEmpty : MState :=
  PlayerManager.startRound (fun _ => rnd0)
    (PlayerManager.init { maxRounds := 1, physics := physNoHole }
      (mkManager dims0 DEFAULT_CONSTANTS []))

/-- Two-player manager after `init(maxRounds = 5)`, round not started:
`running = false`, `roundCount = 0`. -/
def mgrIdle : MState :=
  PlayerManager.init { maxRounds := 5, physics := physNoHole }
    (mkManager dims0 constsNoStart [redT, blueT])

/-- Invariant describing the hole state machine of a player with
jitter-free hole configuration `(R, S)` after `k` full frames: the hole
counter equals `k mod (R+S+1)` and the `hole` flag is set exactly on the
residues `R+1 .. R+S`. -/
def HoleCycleInv (R S : ℕ) (k : ℕ) (p : PState) : Prop :=
  p.holeRate = (R : ℚ) ∧ p.holeSize = (S : ℚ) ∧
  p.holeRateRnd = 0 ∧ p.holeSizeRnd = 0 ∧
  p.nextHole = (R : ℚ) ∧ p.nextHoleSize = (S : ℚ) ∧
  p.startTime ≤ 3 ∧ p.dying = false ∧
  p.holeCounter = k % (R + S + 1) ∧
  (p.hole = true ↔ R + 1 ≤ k % (R + S + 1))

lemma initFold_roundCount (cfg : MConfig) (st : MState) (tp : Template) :
    (initFold cfg st tp).roundCount = st.roundCount := by
  unfold initFold
  split
  · rfl
  · rfl

lemma foldl_initFold_roundCount (cfg : MConfig) :
    ∀ (ts : List Template) (st : MState),
      (ts.foldl (initFold cfg) st).roundCount = st.roundCount := by
  intro ts
  induction ts with
  | nil => intro st; rfl
  | cons tp ts ih =>
    intro st
    rw [List.foldl_cons, ih, initFold_roundCount]

lemma init_roundCount (cfg : MConfig) (m : MState) :
    (PlayerManager.init cfg m).roundCount = 0 := by
  unfold PlayerManager.init
  rw [foldl_initFold_roundCount]

lemma croCore_rc_le (pool : List PState) (rc : ℤ) (run : Bool) :
    rc ≤ (croCore pool rc run).1 := by
  unfold croCore
  split
  · exact le_of_lt (lt_add_one rc)
  · exact le_refl rc

lemma animGo_rc_le (t : TrigModel) (envs : ℕ → Env) (rest : List PState) :
    ∀ (i : ℕ) (done : List PState) (rc : ℤ) (run : Bool),
      rc ≤ (animGo t envs i done rest rc run).2.1 := by
  induction rest with
  | nil => intro i done rc run; exact le_refl rc
  | cons p rest ih =>
    intro i done rc run
    by_cases hd : p.dead = true
    · simpa [animGo, hd] using ih (i + 1) (done ++ [p]) rc run
    · simp only [animGo, hd, if_false]
      refine le_trans ?_ (ih (i + 1) _ _ _)
      by_cases hf : (Player.draw t (envs i) p).2.deathFired = true
      · simpa [hf] using croCore_rc_le _ rc run
      · simp [hf]

lemma checkRoundOver_rc_le (m : MState) :
    m.roundCount ≤ (PlayerManager.checkRoundOver m).roundCount := by
  unfold PlayerManager.checkRoundOver
  exact croCore_rc_le _ _ _

lemma animate_rc_le (t : TrigModel) (envs : ℕ → Env) (m : MState) :
    m.roundCount ≤ (PlayerManager.animate t envs m).1.roundCount := by
  unfold PlayerManager.animate
  by_cases hr : m.running = true
  · simpa [hr] using animGo_rc_le t envs m.pool 0 [] m.roundCount m.running
  · by_cases hs : (envs 0).keys spaceKey = true
    · by_cases hq : m.roundCount < m.maxRounds
      · simp [hr, hs, hq]
      · simp [hr, hs, hq]
    · simp [hr, hs]

/-- C3 (amended): in every state of a `PlayerManager` reachable by any
sequence of `init()`, `startRound()`, `animate()` and `checkRoundOver()`
calls, `0 ≤ roundCount` holds; the upper bound `roundCount ≤ maxRounds`
claimed alongside it does not hold (see the counterexample). -/
theorem c3_roundCount_lower_bound (m : MState) (h : Reach m) :
    0 ≤ m.roundCount := by
  induction h with
  | new d c ts => exact le_refl 0
  | init cfg hm ih => rw [init_roundCount]
  | start rs hm ih => simpa [PlayerManager.startRound] using ih
  | anim t envs hm ih => exact le_trans ih (animate_rc_le t envs _)
  | cro hm ih => exact le_trans ih (checkRoundOver_rc_le _)

/-- C3 witness: the lower bound at a freshly constructed manager. -/
theorem c3_roundCount_lower_bound_witness :
    0 ≤ (mkManager dims0 DEFAULT_CONSTANTS [redT]).roundCount :=
  c3_roundCount_lower_bound _ (Reach.new dims0 DEFAULT_CONSTANTS [redT])

/-- C3 counterexample: a reachable state violating
`roundCount ≤ maxRounds`.  After `init(maxRounds = 1)` on a one-player
roster, two `checkRoundOver()` calls (the scan triggers on a singleton
pool even with zero dead players, and nothing guards against repeats)
leave `roundCount = 2 > maxRounds = 1`. -/
theorem c3_overshoot :
    (PlayerManager.checkRoundOver (PlayerManager.checkRoundOver mgrOne)).roundCount = 2 ∧
    (PlayerManager.checkRoundOver (PlayerManager.checkRoundOver mgrOne)).maxRounds = 1 := by
  decide

/-- C10: for a living player whose incremented frame counter lies
strictly between 2 and `startTime`, `draw()` changes nothing but that
counter: position, angle, life flags, hole state and the canvas trace
are untouched and no collision check is issued. -/
theorem c10_skip_frame_counter_only (t : TrigModel) (env : Env) (p : PState)
    (hdead : p.dead = false) (h2 : 2 < p.counter + 1)
    (hst : ((p.counter + 1 : ℕ) : ℚ) < p.startTime) :
    Player.draw t env p = ({ p with counter := p.counter + 1 }, noOut) := by
  unfold Player.draw
  rw [if_pos]
  exact ⟨hst, h2⟩

/-- C10 witness: the player `pRed` (startTime 40) after two frames has
counter 2; its third `draw()` only increments the counter. -/
theorem c10_skip_frame_counter_only_witness :
    (stepN trigUp (fun _ => envBlack) pRed 2).dead = false ∧
    2 < (stepN trigUp (fun _ => envBlack) pRed 2).counter + 1 ∧
    (((stepN trigUp (fun _ => envBlack) pRed 2).counter + 1 : ℕ) : ℚ) <
      (stepN trigUp (fun _ => envBlack) pRed 2).startTime ∧
    Player.draw trigUp envBlack (stepN trigUp (fun _ => envBlack) pRed 2) =
      ({ stepN trigUp (fun _ => envBlack) pRed 2 with
         counter := (stepN trigUp (fun _ => envBlack) pRed 2).counter + 1 }, noOut) :=
  ⟨by decide, by decide, by decide,
   c10_skip_frame_counter_only trigUp envBlack _ (by decide) (by decide) (by decide)⟩

/-- C8 (amended): on an empty pool `checkRoundOver()` is a no-op — the
dead-count scan iterates zero players, so `running` and `roundCount` are
unchanged and the round does not end. -/
theorem c8_checkRoundOver_empty_noop (m : MState) (h : m.pool = []) :
    PlayerManager.checkRoundOver m = m := by
  cases m
  simp_all [PlayerManager.checkRoundOver, croCore, croScan]

/-- C8 witness: the no-op at the concrete empty-roster manager. -/
theorem c8_checkRoundOver_empty_noop_witness :
    mgrEmpty.pool = [] ∧ PlayerManager.checkRoundOver mgrEmpty = mgrEmpty :=
  ⟨by decide, c8_checkRoundOver_empty_noop mgrEmpty (by decide)⟩

/-- C8 counterexample: on the running empty-roster manager, a single
`checkRoundOver()` call leaves `running = true` and `roundCount = 0`,
contradicting the claim that it sets `running = false` and increments
`roundCount`. -/
theorem c8_empty_pool_round_never_ends :
    mgrEmpty.pool = [] ∧ mgrEmpty.running = true ∧
    (PlayerManager.checkRoundOver mgrEmpty).running = true ∧
    (PlayerManager.checkRoundOver mgrEmpty).roundCount = 0 := by
  decide

/-- C1: evaluation at the failing input.  The previous roster holds a
red player with cumulative score 3 and the red template is ready, yet
after `init()` the newly created red player has score 0: the source
empties `this.#pool` before the name-matching lookup, so the lookup can
never see the previous roster and every `init()` resets all scores. -/
theorem c1_init_resets_previous_scores :
    mgrPrev.pool.map (fun p => p.score) = [3] ∧
    mgrPrev.templates = [redT] ∧
    ((PlayerManager.init { maxRounds := 1, physics := physNoHole } mgrPrev).pool.map
      (fun p => p.name)) = [redT.name] ∧
    ((PlayerManager.init { maxRounds := 1, physics := physNoHole } mgrPrev).pool.map
      (fun p => p.score)) = [0] := by
  decide

lemma countDead_nonneg : ∀ l : List PState, 0 ≤ countDead l
  | [] => le_refl 0
  | p :: r => by
    unfold countDead
    have h := countDead_nonneg r
    split <;> omega

lemma countDead_nil : countDead [] = 0 := rfl

lemma countDead_cons (p : PState) (r : List PState) :
    countDead (p :: r) = (if p.dead then 1 else 0) + countDead r := rfl

lemma croScan_true_of (l : List PState) :
    ∀ a T : ℤ, T ≤ a + countDead l → l ≠ [] → croScan l a T = true := by
  induction l with
  | nil => intro a T h hne; exact absurd rfl hne
  | cons p r ih =>
    intro a T h hne
    have hr := countDead_nonneg r
    unfold croScan
    by_cases hT : (if p.dead then a + 1 else a) ≥ T
    · rw [if_pos hT]
    · rw [if_neg hT]
      rcases r with _ | ⟨q, r⟩
      · exfalso
        rw [countDead_cons, countDead_nil] at h
        by_cases hd : p.dead = true <;> simp [hd] at h hT <;> omega
      · refine ih _ _ ?_ (List.cons_ne_nil q r)
        rw [countDead_cons] at h
        by_cases hd : p.dead = true <;> simp [hd] at h hT <;> simp [hd] <;> omega

lemma croScan_le_of_true (l : List PState) :
    ∀ a T : ℤ, croScan l a T = true → T ≤ a + countDead l := by
  induction l with
  | nil => intro a T h; exact absurd h (by simp [croScan])
  | cons p r ih =>
    intro a T h
    have hr := countDead_nonneg r
    unfold croScan at h
    rw [countDead_cons]
    by_cases hT : (if p.dead then a + 1 else a) ≥ T
    · by_cases hd : p.dead = true <;> simp [hd] at hT <;> simp [hd] <;> omega
    · rw [if_neg hT] at h
      have hle := ih _ _ h
      by_cases hd : p.dead = true <;> simp [hd] at hle hT <;> simp [hd] <;> omega

/-- C2 (amended): `checkRoundOver()` has no once-per-round guard.  On a
nonempty pool it sets `running = false` and increments `roundCount` on
EVERY call at which the dead count has reached `N - 1`, and leaves the
state unchanged when the dead count is below `N - 1`.  The
`running` true-to-false transition therefore happens once per round (at
the first triggering call), but each later triggering call — e.g. the
second death callback when two players die in the same `animate()`
pass — increments `roundCount` again without a transition. -/
theorem c2_checkRoundOver_unguarded (m : MState) :
    (m.pool ≠ [] → (m.pool.length : ℤ) - 1 ≤ countDead m.pool →
      PlayerManager.checkRoundOver m =
        { m with running := false, roundCount := m.roundCount + 1 }) ∧
    (countDead m.pool < (m.pool.length : ℤ) - 1 →
      PlayerManager.checkRoundOver m = m) := by
  constructor
  · intro hne hge
    have hs : croScan m.pool 0 ((m.pool.length : ℤ) - 1) = true :=
      croScan_true_of m.pool 0 _ (by omega) hne
    unfold PlayerManager.checkRoundOver croCore
    rw [if_pos hs]
  · intro hlt
    have hs : ¬ croScan m.pool 0 ((m.pool.length : ℤ) - 1) = true := by
      intro hc
      have := croScan_le_of_true m.pool 0 _ hc
      omega
    unfold PlayerManager.checkRoundOver croCore
    rw [if_neg hs]

/-- C2 witness: on the two-player pool of `mgrTwo` with no dead players,
the dead count (0) is below `N - 1 = 1`, and `checkRoundOver()` leaves
the state unchanged. -/
theorem c2_checkRoundOver_unguarded_witness :
    countDead mgrTwo.pool < (mgrTwo.pool.length : ℤ) - 1 ∧
    PlayerManager.checkRoundOver mgrTwo = mgrTwo :=
  ⟨by decide, (c2_checkRoundOver_unguarded mgrTwo).2 (by decide)⟩

/-- C2 counterexample: both players of `mgrTwo` collide on frame 1 (every
pixel reads red) and both die inside the third `animate()` pass; each
death callback runs `checkRoundOver()`, and the second call increments
`roundCount` again, so a single round-ending pass takes `roundCount`
from 0 to 2 — the claim demands exactly one increment per round. -/
theorem c2_double_increment :
    mgrTwo.running = true ∧ mgrTwo.roundCount = 0 ∧
    (animateRed (animateRed mgrTwo)).running = true ∧
    (animateRed (animateRed mgrTwo)).roundCount = 0 ∧
    ((animateRed (animateRed mgrTwo)).pool.map (fun p => p.dead)) = [false, false] ∧
    (animateRed (animateRed (animateRed mgrTwo))).running = false ∧
    ((animateRed (animateRed (animateRed mgrTwo))).pool.map (fun p => p.dead)) =
      [true, true] ∧
    (animateRed (animateRed (animateRed mgrTwo))).roundCount = 2 := by
  decide

lemma animGo_names (t : TrigModel) (envs : ℕ → Env) (rest : List PState) :
    ∀ (i : ℕ) (done : List PState) (rc : ℤ) (run : Bool),
      (animGo t envs i done rest rc run).2.2.2 =
        (rest.filter (fun p => !p.dead)).map (fun p => p.name) := by
  induction rest with
  | nil => intro i done rc run; rfl
  | cons p rest ih =>
    intro i done rc run
    by_cases hd : p.dead = true
    · simp [animGo, hd, ih]
    · simp [animGo, hd, ih]

/-- C9 (amended): while `running` is false, `animate()` polls the space
key LEVEL-triggered — it fires a callback on every call at which the key
is held (once per frame while held, not once per press), choosing
`onNewRound` when `roundCount < maxRounds` and `onFinish` otherwise, and
fires nothing when the key is up; while `running` is true the space key
has no effect and `draw()` is invoked exactly on the roster players
whose `dead` flag is unset, in roster order. -/
theorem c9_animate_contract (t : TrigModel) (envs : ℕ → Env) (m : MState) :
    (m.running = true →
      (PlayerManager.animate t envs m).2.events = [] ∧
      (PlayerManager.animate t envs m).2.drawnNames =
        (m.pool.filter (fun p => !p.dead)).map (fun p => p.name)) ∧
    (m.running = false → (envs 0).keys spaceKey = true →
      m.roundCount < m.maxRounds →
      PlayerManager.animate t envs m =
        (m, { drawnNames := [], events := [GEvent.newRound] })) ∧
    (m.running = false → (envs 0).keys spaceKey = true →
      ¬ m.roundCount < m.maxRounds →
      PlayerManager.animate t envs m =
        (m, { drawnNames := [], events := [GEvent.finish] })) ∧
    (m.running = false → (envs 0).keys spaceKey = false →
      PlayerManager.animate t envs m =
        (m, { drawnNames := [], events := [] })) := by
  refine ⟨?_, ?_, ?_, ?_⟩
  · intro hr
    unfold PlayerManager.animate
    rw [if_pos hr]
    exact ⟨rfl, animGo_names t envs m.pool 0 [] m.roundCount m.running⟩
  · intro hr hs hq
    unfold PlayerManager.animate
    rw [if_neg (by simp [hr]), if_pos hs, if_pos hq]
  · intro hr hs hq
    unfold PlayerManager.animate
    rw [if_neg (by simp [hr]), if_pos hs, if_neg hq]
    cases m
    simp_all
  · intro hr hs
    unfold PlayerManager.animate
    rw [if_neg (by simp [hr]), if_neg (by simp [hs])]

/-- C9 witness: the contract applied at `mgrTwo` (running, both players
alive, drawn in roster order) for the running part. -/
theorem c9_animate_contract_witness :
    mgrTwo.running = true ∧
    (PlayerManager.animate trigUp (fun _ => envBlack) mgrTwo).2.drawnNames =
      (mgrTwo.pool.filter (fun p => !p.dead)).map (fun p => p.name) :=
  ⟨by decide, ((c9_animate_contract trigUp (fun _ => envBlack) mgrTwo).1 (by decide)).2⟩

/-- C9 counterexample: `mgrIdle` is not running with `roundCount = 0 <
maxRounds = 5`; the space key is held across two consecutive `animate()`
calls (one press, never released) and the `onNewRound` callback fires in
BOTH calls — the claim demands one firing per press. -/
theorem c9_space_fires_every_frame :
    mgrIdle.running = false ∧
    mgrIdle.roundCount = 0 ∧ mgrIdle.maxRounds = 5 ∧
    (PlayerManager.animate trigUp (fun _ => envSpace) mgrIdle).2.events =
      [GEvent.newRound] ∧
    (PlayerManager.animate trigUp (fun _ => envSpace)
      (PlayerManager.animate trigUp (fun _ => envSpace) mgrIdle).1).2.events =
      [GEvent.newRound] := by
  decide

lemma createHole_stay (env : Env) (q : PState) (hh : q.hole = true)
    (hs : ((q.holeCounter + 1 : ℕ) : ℚ) ≤ q.nextHole + q.nextHoleSize) :
    Player.createHole env q =
      { q with hole := true, holeCounter := q.holeCounter + 1 } := by
  simp only [Player.createHole]
  rw [if_pos (Or.inr hh), if_neg (not_lt.mpr hs)]

/-- C4 (amended): the boundary test is the FIRST, unconditional step of
`isColliding()` — an out-of-bounds position is a collision with no pixel
sampling — but `isColliding()` itself is only invoked when the player is
not in a hole: a player whose `hole` flag is (and stays) true performs
no collision check at all that frame, boundary included, and its
`dying`/`dead` flags are untouched, so a mid-hole player cannot die from
a boundary collision. -/
theorem c4_hole_gates_all_collision (t : TrigModel) (env : Env) (p : PState) :
    (p.x < 0 ∨ p.x > p.dims.width - p.dims.scoreWidth ∨ p.y < 0 ∨ p.y > p.dims.height →
      Player.isColliding t env p = (true, [])) ∧
    (¬ (((p.counter + 1 : ℕ) : ℚ) < p.startTime ∧ p.counter + 1 > 2) →
     ¬ (p.dying = true ∧ ((p.afterDieCount : ℕ) : ℚ) > p.afterDieTime) →
     p.hole = true →
     ((p.holeCounter + 1 : ℕ) : ℚ) ≤ p.nextHole + p.nextHoleSize →
      (Player.draw t env p).2.checked = false ∧
      (Player.draw t env p).2.pixelReads = [] ∧
      (Player.draw t env p).1.dying = p.dying ∧
      (Player.draw t env p).1.dead = p.dead) := by
  constructor
  · intro hb
    simp only [Player.isColliding]
    rw [if_pos hb]
  · intro hskip hdead hhole hsize
    simp only [Player.draw, Player.steerAndMove]
    rw [if_neg hskip, if_neg hdead]
    by_cases hdy : p.dying = true <;>
      by_cases hL : env.keys p.left = true <;>
        by_cases hR : env.keys p.right = true <;>
          simp only [hdy, hL, hR, eq_self_iff_true, if_true, if_false, ite_true,
            ite_false, Bool.false_eq_true] <;>
            rw [createHole_stay env _ (by simpa using hhole) (by simpa using hsize)] <;>
              simp [noOut]

/-- C4 counterexample: `pFast` enters its hole on frame 3 (hole counter
3 > onset 2) and the same frame's movement carries it to `x = 500`,
outside the 400-wide play area; yet `draw()` performs no collision check
at all (`checked = false`, zero pixel reads) and `dying` stays false —
the claim says the boundary check still runs for a player whose `inHole`
flag is true and can kill it. -/
theorem c4_in_hole_boundary_immune :
    (stepN trigRight (fun _ => envBlack) pFast 3).hole = true ∧
    (stepN trigRight (fun _ => envBlack) pFast 3).x = 500 ∧
    pFast.dims.width - pFast.dims.scoreWidth = 400 ∧
    (stepN trigRight (fun _ => envBlack) pFast 3).dying = false ∧
    (stepN trigRight (fun _ => envBlack) pFast 3).dead = false ∧
    (outN trigRight (fun _ => envBlack) pFast 2).checked = false ∧
    (outN trigRight (fun _ => envBlack) pFast 2).pixelReads = [] := by
  decide

/-- C4 witness: both halves of the amended statement at the concrete
in-hole, out-of-bounds state reached by `pFast` after 3 frames. -/
theorem c4_hole_gates_all_collision_witness :
    (stepN trigRight (fun _ => envBlack) pFast 3).x >
      (stepN trigRight (fun _ => envBlack) pFast 3).dims.width -
        (stepN trigRight (fun _ => envBlack) pFast 3).dims.scoreWidth ∧
    Player.isColliding trigRight envBlack
      (stepN trigRight (fun _ => envBlack) pFast 3) = (true, []) ∧
    (Player.draw trigRight envBlack
      (stepN trigRight (fun _ => envBlack) pFast 3)).2.checked = false :=
  ⟨by decide,
   (c4_hole_gates_all_collision trigRight envBlack _).1 (by decide),
   ((c4_hole_gates_all_collision trigRight envBlack _).2
      (by decide) (by decide) (by decide) (by decide)).1⟩

lemma createHole_stay_out (env : Env) (q : PState) (hh : q.hole = false)
    (hs : ((q.holeCounter + 1 : ℕ) : ℚ) ≤ q.nextHole) :
    Player.createHole env q = { q with holeCounter := q.holeCounter + 1 } := by
  simp only [Player.createHole]
  rw [if_neg]
  intro h
  rcases h with h | h
  · exact absurd h (not_lt.mpr hs)
  · rw [hh] at h
    exact Bool.false_ne_true h

/-- C5 (amended): with `startTime = 40`, a living player performs zero
collision checks and zero trail draws on frame-counter values 3 through
39; but on frame-counter values 1 and 2 it executes the FULL update — it
advances the hole counter, runs the collision check (when no hole is
active), draws the trail circle, and moves by the usual integration
step. -/
theorem c5_startup_window_frames (t : TrigModel) (env : Env) (p : PState) :
    (p.startTime = 40 → 2 < p.counter + 1 → p.counter + 1 < 40 →
      Player.draw t env p = ({ p with counter := p.counter + 1 }, noOut)) ∧
    (p.counter + 1 ≤ 2 → p.dying = false → p.hole = false →
     ((p.holeCounter + 1 : ℕ) : ℚ) ≤ p.nextHole →
      (Player.draw t env p).2.checked = true ∧
      (Player.draw t env p).2.strokes.length = 1) ∧
    (p.counter + 1 ≤ 2 → p.dying = false → p.hole = false →
     ((p.holeCounter + 1 : ℕ) : ℚ) ≤ p.nextHole →
     env.fps = none → env.keys p.left = false → env.keys p.right = false →
      (Player.draw t env p).1.x = p.x + p.speed * t.sin (p.angle * t.pi / 180) ∧
      (Player.draw t env p).1.y = p.y + p.speed * t.cos (p.angle * t.pi / 180)) := by
  refine ⟨?_, ?_, ?_⟩
  · intro h40 hgt hlt
    simp only [Player.draw]
    rw [if_pos ⟨by rw [h40]; exact_mod_cast hlt, hgt⟩]
  · intro hle hdy hh hs
    simp only [Player.draw, Player.steerAndMove]
    rw [if_neg (fun hand => by omega), if_neg (by simp [hdy])]
    by_cases hL : env.keys p.left = true <;>
      by_cases hR : env.keys p.right = true <;>
        simp only [hdy, hL, hR, eq_self_iff_true, if_true, if_false, ite_true,
          ite_false, Bool.false_eq_true] <;>
          rw [createHole_stay_out env _ (by simpa using hh) (by simpa using hs)] <;>
            simp [noOut, hh]
  · intro hle hdy hh hs hfps hL hR
    simp only [Player.draw, Player.steerAndMove]
    rw [if_neg (fun hand => by omega), if_neg (by simp [hdy])]
    simp only [hdy, hL, hR, hfps, eq_self_iff_true, if_true, if_false, ite_true,
      ite_false, Bool.false_eq_true]
    rw [createHole_stay_out env _ (by simpa using hh) (by simpa using hs)]
    simp [noOut, hh, apply_ite PState.x, apply_ite PState.y]

/-- C5 witness: the full-update half applied at the freshly initialized
`pRed` (counter 0, so the next frame is frame 1). -/
theorem c5_startup_window_frames_witness :
    pRed.counter + 1 ≤ 2 ∧ pRed.startTime = 40 ∧
    (Player.draw trigUp envBlack pRed).2.checked = true ∧
    (Player.draw trigUp envBlack pRed).2.strokes.length = 1 :=
  ⟨by decide, by decide,
   ((c5_startup_window_frames trigUp envBlack pRed).2.1
      (by decide) (by decide) (by decide) (by decide)).1,
   ((c5_startup_window_frames trigUp envBlack pRed).2.1
      (by decide) (by decide) (by decide) (by decide)).2⟩

/-- C5 counterexample: on frame 1 (with `startTime = 40`), `pRed` DOES
run a collision check (two pixel reads) and DOES move (y goes from 50 to
51) in addition to drawing the trail — the claim says frames 1 and 2
draw but perform no collision check and do not move. -/
theorem c5_early_frames_full_update :
    pRed.startTime = 40 ∧ pRed.counter = 0 ∧ pRed.y = 50 ∧
    (outN trigUp (fun _ => envBlack) pRed 0).checked = true ∧
    (outN trigUp (fun _ => envBlack) pRed 0).pixelReads.length = 2 ∧
    (outN trigUp (fun _ => envBlack) pRed 0).strokes = [(50, 51)] ∧
    (stepN trigUp (fun _ => envBlack) pRed 1).y = 51 := by
  decide

lemma createHole_counter (env : Env) (q : PState) :
    (Player.createHole env q).counter = q.counter := by
  simp only [Player.createHole]
  split <;> first | rfl | (split <;> rfl)

lemma createHole_dying (env : Env) (q : PState) :
    (Player.createHole env q).dying = q.dying := by
  simp only [Player.createHole]
  split <;> first | rfl | (split <;> rfl)

lemma createHole_dead (env : Env) (q : PState) :
    (Player.createHole env q).dead = q.dead := by
  simp only [Player.createHole]
  split <;> first | rfl | (split <;> rfl)

lemma createHole_adc (env : Env) (q : PState) :
    (Player.createHole env q).afterDieCount = q.afterDieCount := by
  simp only [Player.createHole]
  split <;> first | rfl | (split <;> rfl)

lemma createHole_adt (env : Env) (q : PState) :
    (Player.createHole env q).afterDieTime = q.afterDieTime := by
  simp only [Player.createHole]
  split <;> first | rfl | (split <;> rfl)

lemma createHole_startTime (env : Env) (q : PState) :
    (Player.createHole env q).startTime = q.startTime := by
  simp only [Player.createHole]
  split <;> first | rfl | (split <;> rfl)

lemma draw_dying_grace (t : TrigModel) (env : Env) (p : PState)
    (hdy : p.dying = true) (hadc : p.afterDieCount = 0) (hadt : p.afterDieTime = 0)
    (hpd : p.dead = false)
    (hskip : ¬(((p.counter + 1 : ℕ) : ℚ) < p.startTime ∧ p.counter + 1 > 2)) :
    (Player.draw t env p).1.dying = true ∧
    (Player.draw t env p).1.dead = false ∧
    (Player.draw t env p).1.afterDieCount = 1 ∧
    (Player.draw t env p).1.counter = p.counter + 1 ∧
    (Player.draw t env p).1.afterDieTime = 0 ∧
    (Player.draw t env p).1.startTime = p.startTime ∧
    (Player.draw t env p).2.deathFired = false := by
  simp only [Player.draw, Player.steerAndMove]
  rw [if_neg hskip, if_neg (by simp [hadc, hadt])]
  by_cases hL : env.keys p.left = true <;>
    by_cases hR : env.keys p.right = true <;>
      simp only [hdy, hL, hR, hadc, eq_self_iff_true, if_true, if_false, ite_true,
        ite_false, Bool.false_eq_true] <;>
        (repeat' split) <;>
          simp [createHole_dying, createHole_dead, createHole_adc,
            createHole_counter, createHole_adt, createHole_startTime,
            hdy, hpd, hadc, hadt, noOut]

/-- C7 (amended): with `afterDieTime = 0`, once a collision has set
`dying` (grace counter 0) and the next two frames are not swallowed by
the startup-skip window, the next `draw()` is the single dying-grace
frame (still not dead, grace counter becomes 1, no callback) and the
`draw()` after that sets `dead = true` and fires the death callback,
without moving, drawing or sampling pixels; from then on `animate()`
skips the dead player entirely, so the callback fires exactly once.  (As
stated the claim is false: if the hit lands on frame 1 or 2, frames 3
through `startTime - 1` are skipped wholesale and death is deferred past
the window — with `startTime = 40`, to frame 40 for a frame-1 hit, whose
grace frame is frame 2, and to frame 41 for a frame-2 hit, whose grace
frame is frame 40 — see the counterexample.) -/
theorem c7_dying_grace (t : TrigModel) (env1 env2 : Env) (p : PState)
    (hdy : p.dying = true) (hadc : p.afterDieCount = 0) (hadt : p.afterDieTime = 0)
    (hpd : p.dead = false)
    (h1 : ¬(((p.counter + 1 : ℕ) : ℚ) < p.startTime ∧ p.counter + 1 > 2))
    (h2 : ¬(((p.counter + 2 : ℕ) : ℚ) < p.startTime ∧ p.counter + 2 > 2)) :
    (Player.draw t env1 p).2.deathFired = false ∧
    (Player.draw t env1 p).1.dead = false ∧
    (Player.draw t env1 p).1.dying = true ∧
    (Player.draw t env1 p).1.afterDieCount = 1 ∧
    (Player.draw t env2 (Player.draw t env1 p).1).1.dead = true ∧
    (Player.draw t env2 (Player.draw t env1 p).1).2.deathFired = true ∧
    (Player.draw t env2 (Player.draw t env1 p).1).1.x = (Player.draw t env1 p).1.x ∧
    (Player.draw t env2 (Player.draw t env1 p).1).1.y = (Player.draw t env1 p).1.y ∧
    (Player.draw t env2 (Player.draw t env1 p).1).2.strokes = [] ∧
    (Player.draw t env2 (Player.draw t env1 p).1).2.pixelReads = [] ∧
    (∀ (t2 : TrigModel) (envs : ℕ → Env) (i : ℕ) (done rest : List PState)
       (rc : ℤ) (run : Bool),
      animGo t2 envs i done ((Player.draw t env2 (Player.draw t env1 p).1).1 :: rest) rc run =
        animGo t2 envs (i + 1)
          (done ++ [(Player.draw t env2 (Player.draw t env1 p).1).1]) rest rc run) := by
  obtain ⟨g1, g2, g3, g4, g5, g6, g7⟩ := draw_dying_grace t env1 p hdy hadc hadt hpd h1
  set q := (Player.draw t env1 p).1 with hq
  have hc2 : q.counter + 1 = p.counter + 2 := by omega
  have hskip2 : ¬(((q.counter + 1 : ℕ) : ℚ) < q.startTime ∧ q.counter + 1 > 2) := by
    rw [hc2, g6]
    exact h2
  have hdead2 : q.dying = true ∧ ((q.afterDieCount : ℕ) : ℚ) > q.afterDieTime := by
    refine ⟨g1, ?_⟩
    rw [g3, g5]
    norm_num
  have hd2 : Player.draw t env2 q =
      ({ { q with counter := q.counter + 1 } with dead := true },
       { noOut with deathFired := true }) := by
    simp only [Player.draw]
    rw [if_neg hskip2, if_pos hdead2]
  refine ⟨g7, g2, g1, g3, ?_, ?_, ?_, ?_, ?_, ?_, ?_⟩
  · rw [hd2]
  · rw [hd2]
  · rw [hd2]
  · rw [hd2]
  · rw [hd2]
    simp [noOut]
  · rw [hd2]
    simp [noOut]
  · intro t2 envs i done rest rc run
    simp [animGo, hd2]

/-- C7 witness: the grace-and-death timing at a concrete player with no
startup window that collided on frame 1. -/
theorem c7_dying_grace_witness :
    (stepN trigUp (fun _ => envRed) pNoStart 1).dying = true ∧
    (Player.draw trigUp envRed
      (Player.draw trigUp envRed (stepN trigUp (fun _ => envRed) pNoStart 1)).1).1.dead = true :=
  ⟨by decide,
   (c7_dying_grace trigUp envRed envRed (stepN trigUp (fun _ => envRed) pNoStart 1)
      (by decide) (by decide) (by decide) (by decide) (by decide) (by decide)).2.2.2.2.1⟩

/-- C7 counterexample: `pRed` uses `DEFAULT_CONSTANTS`
(`afterDieTime = 0`, `startTime = 40`).  With every pixel red its
collision check reports a hit on frame 1 (`n = 1`); the claim then
demands `dead = true` on or immediately after frame 2, yet the player is
still not `dead` after 39 frames — frame 2 is the dying-grace frame and
frames 3 through 39 are swallowed by the startup-skip window — and dies
on frame 40, where the death callback fires for the first time.  With
black pixels on frame 1 only, the hit lands on frame 2 (`n = 2`), frame
40 becomes the grace frame, and death lands on frame 41. -/
theorem c7_startup_freeze :
    pRed.afterDieTime = 0 ∧ pRed.startTime = 40 ∧
    (outN trigUp (fun _ => envRed) pRed 0).collided = true ∧
    (stepN trigUp (fun _ => envRed) pRed 1).dying = true ∧
    (stepN trigUp (fun _ => envRed) pRed 39).dying = true ∧
    (stepN trigUp (fun _ => envRed) pRed 39).dead = false ∧
    (stepN trigUp (fun _ => envRed) pRed 40).dead = true ∧
    ((List.range 40).map (fun k => (outN trigUp (fun _ => envRed) pRed k).deathFired)) =
      List.replicate 39 false ++ [true] ∧
    (outN trigUp envsHit2 pRed 0).collided = false ∧
    (outN trigUp envsHit2 pRed 1).collided = true ∧
    (stepN trigUp envsHit2 pRed 40).dead = false ∧
    (stepN trigUp envsHit2 pRed 41).dead = true := by
  decide

lemma createHole_enter (env : Env) (q : PState)
    (hgt : q.nextHole < ((q.holeCounter + 1 : ℕ) : ℚ))
    (hle : ((q.holeCounter + 1 : ℕ) : ℚ) ≤ q.nextHole + q.nextHoleSize) :
    Player.createHole env q =
      { q with hole := true, holeCounter := q.holeCounter + 1 } := by
  simp only [Player.createHole]
  rw [if_pos (Or.inl hgt), if_neg (not_lt.mpr hle)]

lemma createHole_finish (env : Env) (q : PState)
    (hor : q.nextHole < ((q.holeCounter + 1 : ℕ) : ℚ) ∨ q.hole = true)
    (hgt : q.nextHole + q.nextHoleSize < ((q.holeCounter + 1 : ℕ) : ℚ)) :
    Player.createHole env q =
      { q with nextHole := q.holeRate + (env.rnd1 * 2 - 1) * q.holeRateRnd,
               nextHoleSize := q.holeSize + (env.rnd2 * 2 - 1) * q.holeSizeRnd,
               hole := false, holeCounter := 0 } := by
  simp only [Player.createHole, Player.getNextHole, Player.getNextHoleSize]
  rw [if_pos hor, if_pos hgt]

lemma steerAndMove_holeRate (t : TrigModel) (env : Env) (mult : ℚ) (q : PState) :
    (Player.steerAndMove t env mult q).holeRate = q.holeRate := by
  simp only [Player.steerAndMove]
  split <;> (try split) <;> rfl

lemma steerAndMove_holeRateRnd (t : TrigModel) (env : Env) (mult : ℚ) (q : PState) :
    (Player.steerAndMove t env mult q).holeRateRnd = q.holeRateRnd := by
  simp only [Player.steerAndMove]
  split <;> (try split) <;> rfl

lemma steerAndMove_holeSize (t : TrigModel) (env : Env) (mult : ℚ) (q : PState) :
    (Player.steerAndMove t env mult q).holeSize = q.holeSize := by
  simp only [Player.steerAndMove]
  split <;> (try split) <;> rfl

lemma steerAndMove_holeSizeRnd (t : TrigModel) (env : Env) (mult : ℚ) (q : PState) :
    (Player.steerAndMove t env mult q).holeSizeRnd = q.holeSizeRnd := by
  simp only [Player.steerAndMove]
  split <;> (try split) <;> rfl

lemma steerAndMove_nextHole (t : TrigModel) (env : Env) (mult : ℚ) (q : PState) :
    (Player.steerAndMove t env mult q).nextHole = q.nextHole := by
  simp only [Player.steerAndMove]
  split <;> (try split) <;> rfl

lemma steerAndMove_nextHoleSize (t : TrigModel) (env : Env) (mult : ℚ) (q : PState) :
    (Player.steerAndMove t env mult q).nextHoleSize = q.nextHoleSize := by
  simp only [Player.steerAndMove]
  split <;> (try split) <;> rfl

lemma steerAndMove_hole (t : TrigModel) (env : Env) (mult : ℚ) (q : PState) :
    (Player.steerAndMove t env mult q).hole = q.hole := by
  simp only [Player.steerAndMove]
  split <;> (try split) <;> rfl

lemma steerAndMove_holeCounter (t : TrigModel) (env : Env) (mult : ℚ) (q : PState) :
    (Player.steerAndMove t env mult q).holeCounter = q.holeCounter := by
  simp only [Player.steerAndMove]
  split <;> (try split) <;> rfl

lemma steerAndMove_dying (t : TrigModel) (env : Env) (mult : ℚ) (q : PState) :
    (Player.steerAndMove t env mult q).dying = q.dying := by
  simp only [Player.steerAndMove]
  split <;> (try split) <;> rfl

lemma steerAndMove_startTime (t : TrigModel) (env : Env) (mult : ℚ) (q : PState) :
    (Player.steerAndMove t env mult q).startTime = q.startTime := by
  simp only [Player.steerAndMove]
  split <;> (try split) <;> rfl

lemma steerAndMove_counter (t : TrigModel) (env : Env) (mult : ℚ) (q : PState) :
    (Player.steerAndMove t env mult q).counter = q.counter := by
  simp only [Player.steerAndMove]
  split <;> (try split) <;> rfl

lemma steerAndMove_dead (t : TrigModel) (env : Env) (mult : ℚ) (q : PState) :
    (Player.steerAndMove t env mult q).dead = q.dead := by
  simp only [Player.steerAndMove]
  split <;> (try split) <;> rfl

lemma steerAndMove_afterDieCount (t : TrigModel) (env : Env) (mult : ℚ) (q : PState) :
    (Player.steerAndMove t env mult q).afterDieCount = q.afterDieCount := by
  simp only [Player.steerAndMove]
  split <;> (try split) <;> rfl

lemma steerAndMove_afterDieTime (t : TrigModel) (env : Env) (mult : ℚ) (q : PState) :
    (Player.steerAndMove t env mult q).afterDieTime = q.afterDieTime := by
  simp only [Player.steerAndMove]
  split <;> (try split) <;> rfl

lemma createHole_cycle (env : Env) (R S : ℕ) (hR : 1 ≤ R) (hS : 1 ≤ S)
    (r : ℕ) (hrP : r < R + S + 1) (q : PState)
    (hHR : q.holeRate = (R : ℚ)) (hJR : q.holeRateRnd = 0)
    (hHS : q.holeSize = (S : ℚ)) (hJS : q.holeSizeRnd = 0)
    (hNH : q.nextHole = (R : ℚ)) (hNS : q.nextHoleSize = (S : ℚ))
    (hHC : q.holeCounter = r) (hHO : q.hole = true ↔ R + 1 ≤ r) :
    Player.createHole env q =
      if r + 1 = R + S + 1 then
        { q with nextHole := (R : ℚ), nextHoleSize := (S : ℚ), hole := false,
                 holeCounter := 0 }
      else if r + 1 ≤ R then { q with holeCounter := r + 1 }
      else { q with hole := true, holeCounter := r + 1 } := by
  have hcase : r + 1 = R + S + 1 ∨ r + 1 ≤ R ∨ r = R ∨
      (R + 1 ≤ r ∧ r + 1 ≤ R + S) := by omega
  rcases hcase with h | h | h | h
  · rw [if_pos h]
    rw [createHole_finish env q (Or.inr (hHO.mpr (by omega))) ?hgt]
    case hgt =>
      rw [hNH, hNS, hHC]
      have : ((R + S : ℕ) : ℚ) < ((r + 1 : ℕ) : ℚ) := by
        exact_mod_cast (by omega : R + S < r + 1)
      push_cast at this ⊢
      linarith
    rw [hHR, hJR, hHS, hJS]
    simp
  · rw [if_neg (by omega), if_pos h]
    have hh : q.hole = false := by
      cases hq : q.hole
      · rfl
      · exact absurd (hHO.mp hq) (by omega)
    rw [createHole_stay_out env q hh (by rw [hHC, hNH]; exact_mod_cast (by omega : r + 1 ≤ R)), hHC]
  · rw [if_neg (by omega), if_neg (by omega)]
    have hgt : q.nextHole < ((q.holeCounter + 1 : ℕ) : ℚ) := by
      rw [hHC, hNH, h]
      exact_mod_cast (by omega : R < R + 1)
    have hle : ((q.holeCounter + 1 : ℕ) : ℚ) ≤ q.nextHole + q.nextHoleSize := by
      rw [hHC, hNH, hNS, h]
      have : ((R + 1 : ℕ) : ℚ) ≤ ((R + S : ℕ) : ℚ) := by
        exact_mod_cast (by omega : R + 1 ≤ R + S)
      push_cast at this ⊢
      linarith
    rw [createHole_enter env q hgt hle, hHC]
  · rw [if_neg (by omega), if_neg (by omega)]
    have hle : ((q.holeCounter + 1 : ℕ) : ℚ) ≤ q.nextHole + q.nextHoleSize := by
      rw [hHC, hNH, hNS]
      have : ((r + 1 : ℕ) : ℚ) ≤ ((R + S : ℕ) : ℚ) := by
        exact_mod_cast (by omega : r + 1 ≤ R + S)
      push_cast at this ⊢
      linarith
    rw [createHole_stay env q (hHO.mpr h.1) hle, hHC]

lemma holeCycle_step (R S : ℕ) (hR : 1 ≤ R) (hS : 1 ≤ S) (t : TrigModel)
    (env : Env) (p : PState) (k : ℕ) (hInv : HoleCycleInv R S k p)
    (hnc : (Player.draw t env p).2.collided = false) :
    HoleCycleInv R S (k + 1) (Player.draw t env p).1 ∧
    ((Player.draw t env p).2.strokes ≠ [] ↔ (k + 1) % (R + S + 1) ≤ R) := by
  obtain ⟨hHR, hHS, hJR, hJS, hNH, hNS, hST, hDY, hHC, hHO⟩ := hInv
  have hP1 : 1 < R + S + 1 := by omega
  have hrP : k % (R + S + 1) < R + S + 1 := Nat.mod_lt _ (by omega)
  have hmod : (k + 1) % (R + S + 1) =
      if k % (R + S + 1) + 1 = R + S + 1 then 0 else k % (R + S + 1) + 1 := by
    by_cases hc : k % (R + S + 1) + 1 = R + S + 1
    · rw [if_pos hc, Nat.add_mod, Nat.mod_eq_of_lt hP1, hc, Nat.mod_self]
    · rw [if_neg hc, Nat.add_mod, Nat.mod_eq_of_lt hP1, Nat.mod_eq_of_lt (by omega)]
  have hskip : ¬(((p.counter + 1 : ℕ) : ℚ) < p.startTime ∧ p.counter + 1 > 2) := by
    rintro ⟨ha, hb⟩
    have h3 : (3 : ℚ) ≤ ((p.counter + 1 : ℕ) : ℚ) := by
      exact_mod_cast (by omega : 3 ≤ p.counter + 1)
    linarith
  have hdead : ¬(p.dying = true ∧ ((p.afterDieCount : ℕ) : ℚ) > p.afterDieTime) := by
    simp [hDY]
  simp only [Player.draw] at hnc ⊢
  rw [if_neg hskip, if_neg hdead] at hnc ⊢
  simp only [hDY, eq_self_iff_true, if_true, if_false, ite_true, ite_false,
    Bool.false_eq_true] at hnc ⊢
  simp only [createHole_cycle env R S hR hS (k % (R + S + 1)) hrP,
    steerAndMove_holeRate, steerAndMove_holeRateRnd, steerAndMove_holeSize,
    steerAndMove_holeSizeRnd, steerAndMove_nextHole, steerAndMove_nextHoleSize,
    steerAndMove_hole, steerAndMove_holeCounter,
    hHR, hJR, hHS, hJS, hNH, hNS, hHC, hHO] at hnc ⊢
  by_cases h1 : k % (R + S + 1) + 1 = R + S + 1
  · simp only [h1, eq_self_iff_true, if_true, ite_true] at hnc ⊢
    constructor
    · unfold HoleCycleInv
      rw [hmod, if_pos h1]
      simp_all [HoleCycleInv, steerAndMove_holeRate, steerAndMove_holeRateRnd,
        steerAndMove_holeSize, steerAndMove_holeSizeRnd, steerAndMove_dying,
        steerAndMove_startTime]
    · rw [hmod, if_pos h1]
      simp
  · by_cases h2 : k % (R + S + 1) + 1 ≤ R
    · have hpf : p.hole = false := by
        cases hq : p.hole
        · rfl
        · exact absurd (hHO.mp hq) (by omega)
      simp only [h1, h2, if_false, if_true, ite_false, ite_true,
        eq_self_iff_true] at hnc ⊢
      simp only [steerAndMove_hole, hpf] at hnc ⊢
      constructor
      · unfold HoleCycleInv
        rw [hmod, if_neg h1]
        simp_all [steerAndMove_holeRate, steerAndMove_holeRateRnd,
          steerAndMove_holeSize, steerAndMove_holeSizeRnd, steerAndMove_dying,
          steerAndMove_startTime, steerAndMove_hole]
        omega
      · rw [hmod, if_neg h1]
        simp [h2]
    · simp only [h1, h2, if_false, ite_false, eq_self_iff_true] at hnc ⊢
      constructor
      · unfold HoleCycleInv
        rw [hmod, if_neg h1]
        simp_all [steerAndMove_holeRate, steerAndMove_holeRateRnd,
          steerAndMove_holeSize, steerAndMove_holeSizeRnd, steerAndMove_dying,
          steerAndMove_startTime, steerAndMove_hole]
        omega
      · rw [hmod, if_neg h1]
        simp [h2, noOut]

/-- C6 (amended): for `holeRateRnd = 0` and `holeSizeRnd = 0` with
`holeRate = R ≥ 1` and `holeSize = S ≥ 1` integral, the sequence is
deterministic but the cycle length is `R + S + 1`, not `R + S`: counting
full frames from a fresh round (no startup window, no collisions), frame
`j` draws the trail iff `j mod (R+S+1)` lies in `1..R` or is `0` — that
is, the player first draws for exactly `R` frames, then alternates
indefinitely between NOT drawing for exactly `S` frames and drawing for
exactly `R + 1` frames, because the frame on which the hole counter
passes `onset + duration` resets the cycle and itself draws. -/
theorem c6_hole_alternation (R S n : ℕ) (hR : 1 ≤ R) (hS : 1 ≤ S)
    (t : TrigModel) (envs : ℕ → Env) (p0 : PState)
    (h0 : HoleCycleInv R S 0 p0)
    (hnc : ((List.range n).all
      (fun k => !(outN t envs p0 k).collided)) = true) :
    ∀ k, k < n →
      ((outN t envs p0 k).strokes ≠ [] ↔ (k + 1) % (R + S + 1) ≤ R) := by
  have hnc2 : ∀ k, k < n → (outN t envs p0 k).collided = false := by
    intro k hk
    have hh := List.all_eq_true.mp hnc k (List.mem_range.mpr hk)
    simpa using hh
  have hinv : ∀ k, k ≤ n → HoleCycleInv R S k (stepN t envs p0 k) := by
    intro k
    induction k with
    | zero => intro hk; exact h0
    | succ j ih =>
      intro hj
      exact (holeCycle_step R S hR hS t (envs j) (stepN t envs p0 j) j
        (ih (by omega)) (hnc2 j (by omega))).1
  intro k hk
  exact (holeCycle_step R S hR hS t (envs k) (stepN t envs p0 k) k
    (hinv k (by omega)) (hnc2 k (by omega))).2

/-- C6 witness: the alternation instance at `pCyc` (`holeRate 2`,
`holeSize 1`): frame 6 (index 5) draws because `6 mod 4 = 2 ≤ 2`. -/
theorem c6_hole_alternation_witness :
    HoleCycleInv 2 1 0 pCyc ∧
    ((List.range 8).all
      (fun k => !(outN trigUp (fun _ => envBlack) pCyc k).collided)) = true ∧
    (outN trigUp (fun _ => envBlack) pCyc 5).strokes ≠ [] :=
  ⟨by unfold HoleCycleInv; decide, by decide,
   (c6_hole_alternation 2 1 8 (by decide) (by decide) trigUp (fun _ => envBlack)
      pCyc (by unfold HoleCycleInv; decide) (by decide) 5 (by decide)).mpr
     (by decide)⟩

/-- C6 counterexample: `pCyc` has `holeRate = 2`, `holeSize = 1`, zero
jitter, yet its draw/no-draw sequence over frames 1–7 is
D D N D D D N — frames 4–6 are three consecutive draw frames, which no
alternation of exactly-2-draw and exactly-1-skip runs can produce (the
claim predicts D D N D D N D). -/
theorem c6_extra_draw_frame :
    pCyc.holeRate = 2 ∧ pCyc.holeSize = 1 ∧ pCyc.holeRateRnd = 0 ∧
    pCyc.holeSizeRnd = 0 ∧
    ((List.range 7).map
      (fun k => !(outN trigUp (fun _ => envBlack) pCyc k).strokes.isEmpty)) =
      [true, true, false, true, true, true, false] := by
  decide
